import Mathlib

/-!
Shallow embedding of the SRE_Healthcheck repository (src/healthcheck/healthcheck.go)
and proofs about its probe classification, availability ledger and reporter.

Durations (`time.Duration`, an int64 count of nanoseconds, nonnegative wherever this
program produces one) are modelled as `Nat`; Go's zero value doubles as the "unset"
sentinel for the latency extrema, exactly as in the source.
-/

namespace Healthcheck

/-- One endpoint descriptor, from `Configuration` in healthcheck.go (yaml fields
`name`, `url`, `method`, `headers`). -/
structure Configuration where
  name : String
  url : String
  method : String
  headers : List (String × String)
  deriving DecidableEq, Repr

/-- Per-URL counters and latency aggregates, from `Availability` in healthcheck.go. -/
structure Availability where
  successCount : Nat
  failureCount : Nat
  totalLatency : Nat
  minLatency : Nat
  maxLatency : Nat
  deriving DecidableEq, Repr

/-- The zero record `&Availability{}` allocated per distinct URL in `main`
(healthcheck.go lines 210-215). -/
def Availability.init : Availability := ⟨0, 0, 0, 0, 0⟩

/-- `total := stats.SuccessCount + stats.FailureCount` (healthcheck.go line 133). -/
def Availability.total (a : Availability) : Nat :=
  a.successCount + a.failureCount

/-- What `client.Do` produced: a transport error, or a response with a status code. -/
inductive HttpResult where
  | transportError
  | response (statusCode : Nat)
  deriving DecidableEq, Repr

/-- Environment of a single probe, resolving the effects `checkEndpointHealth`
consults: whether `http.NewRequest` errors (malformed method/URL), what `client.Do`
returns, and the latency that `time.Since(startTime)` measures. -/
structure ProbeEnv where
  newRequestErr : Bool
  result : HttpResult
  latency : Nat
  deriving DecidableEq, Repr

/-- Observable result of one `checkEndpointHealth` call: the updated record, whether
an HTTP request was actually issued (`client.Do` reached), and the latency measured
by `time.Now`/`time.Since` (absent when the function returned before dispatch). -/
structure ProbeEffect where
  avail : Availability
  requestIssued : Bool
  measuredLatency : Option Nat
  deriving DecidableEq, Repr

/-- The success branch of `checkEndpointHealth` (healthcheck.go lines 110-120):
increment `SuccessCount`, add the latency to `TotalLatency`, then update
`MinLatency` (sentinel 0 means unset) and `MaxLatency` in place. -/
def recordSuccess (a : Availability) (latency : Nat) : Availability :=
  let a1 : Availability :=
    { a with successCount := a.successCount + 1, totalLatency := a.totalLatency + latency }
  let a2 : Availability :=
    if a1.minLatency = 0 ∨ latency < a1.minLatency then { a1 with minLatency := latency } else a1
  if latency > a2.maxLatency then { a2 with maxLatency := latency } else a2

/-- The failure branches of `checkEndpointHealth` (lines 80, 102, 123):
`avail.FailureCount++` and nothing else. -/
def recordFailure (a : Availability) : Availability :=
  { a with failureCount := a.failureCount + 1 }

/-- Shallow embedding of `checkEndpointHealth` (healthcheck.go lines 69-125).
The descriptor's name/method/headers influence only the log text and the request
construction, which the `ProbeEnv` oracle resolves; the record update, whether a
request is issued, and the measured latency are the embedded observables. -/
def checkEndpointHealth (env : ProbeEnv) (avail : Availability) (latencyThreshold : Nat) :
    ProbeEffect :=
  if env.newRequestErr then
    { avail := recordFailure avail, requestIssued := false, measuredLatency := none }
  else
    match env.result with
    | HttpResult.transportError =>
        { avail := recordFailure avail, requestIssued := true,
          measuredLatency := some env.latency }
    | HttpResult.response statusCode =>
        if 200 ≤ statusCode ∧ statusCode < 300 ∧ env.latency < latencyThreshold then
          { avail := recordSuccess avail env.latency, requestIssued := true,
            measuredLatency := some env.latency }
        else
          { avail := recordFailure avail, requestIssued := true,
            measuredLatency := some env.latency }

/-- Modelled from the spec: the classification rule of §4.1 — a probe is UP iff a
response is received (no request-construction error, no transport error), its status
code lies in `[200, 300)`, and the measured latency is strictly below the threshold. -/
def probeUp (env : ProbeEnv) (thr : Nat) : Bool :=
  !env.newRequestErr &&
    match env.result with
    | HttpResult.transportError => false
    | HttpResult.response c => decide (200 ≤ c) && decide (c < 300) && decide (env.latency < thr)

/-- A sequence of `checkEndpointHealth` calls against one URL's record. -/
def runProbes (envs : List ProbeEnv) (a : Availability) (thr : Nat) : Availability :=
  envs.foldl (fun acc e => (checkEndpointHealth e acc thr).avail) a

/-- Latencies of the probes classified UP along a run (the classification of one
probe does not depend on the accumulated record). -/
def successLatencies (envs : List ProbeEnv) (thr : Nat) : List Nat :=
  (envs.filter (fun e => probeUp e thr)).map ProbeEnv.latency

/-- Every probe classified UP measured a positive (nonzero) latency. -/
def allUpLatenciesPos (envs : List ProbeEnv) (thr : Nat) : Bool :=
  envs.all fun e => !probeUp e thr || decide (0 < e.latency)

/-- Invariant tying a record to the multiset of successful latencies recorded in it. -/
def LatInvariant (a : Availability) (ls : List Nat) : Prop :=
  a.successCount = ls.length
  ∧ (ls = [] → a.minLatency = 0 ∧ a.maxLatency = 0)
  ∧ (ls ≠ [] → 0 < a.minLatency)
  ∧ a.minLatency ≤ a.maxLatency
  ∧ ∀ l ∈ ls, a.minLatency ≤ l ∧ l ≤ a.maxLatency

/-- One rendered per-endpoint report block of `logAvailability`
(healthcheck.go lines 134-157): either the "no availability data yet" line, or the
percentage/count block where `avgLine = none` renders "Average Latency: N/A" and
`minLine`/`maxLine = none` means the corresponding line is omitted. -/
inductive ReportBlock where
  | noData (name url : String)
  | stats (name url : String) (percentage : Nat) (total success failure : Nat)
      (avgLine : Option Nat) (minLine : Option Nat) (maxLine : Option Nat)
  deriving DecidableEq, Repr

/-- Whether the block is the "no availability data yet" message. -/
def ReportBlock.isNoData : ReportBlock → Bool
  | ReportBlock.noData _ _ => true
  | ReportBlock.stats _ _ _ _ _ _ _ _ _ => false

/-- The numeric content of a block, with the name and URL stripped. -/
def ReportBlock.figures :
    ReportBlock → Option (Nat × Nat × Nat × Nat × Option Nat × Option Nat × Option Nat)
  | ReportBlock.noData _ _ => none
  | ReportBlock.stats _ _ p t s f avg mn mx => some (p, t, s, f, avg, mn, mx)

/-- The percentage computation of `logAvailability` (healthcheck.go lines 139-143):
`(float64(success)/float64(total))*100`, then `float64(int(x + 0.5))`. The float64
arithmetic is modelled exactly over `ℚ`; Go's `int(·)` truncation of a nonnegative
value is `Nat.floor`. -/
def availabilityPercentage (success total : Nat) : Nat :=
  ⌊(((success : ℚ) / (total : ℚ)) * 100 + 1 / 2 : ℚ)⌋₊

/-- The report block `logAvailability` renders for one descriptor from its record
(healthcheck.go lines 131-157). -/
def renderBlock (stats : Availability) (req : Configuration) : ReportBlock :=
  if stats.total = 0 then ReportBlock.noData req.name req.url
  else
    ReportBlock.stats req.name req.url
      (availabilityPercentage stats.successCount stats.total)
      stats.total stats.successCount stats.failureCount
      (if stats.successCount > 0 then some (stats.totalLatency / stats.successCount) else none)
      (if stats.minLatency > 0 then some stats.minLatency else none)
      (if stats.maxLatency > 0 then some stats.maxLatency else none)

/-- The availability map of `main`: URL-keyed records (`map[string]*Availability`). -/
def AvailMap : Type := List (String × Availability)

/-- Map lookup `availability[req.Url]` (keys are unique in a Go map). -/
def lookupUrl : AvailMap → String → Option Availability
  | [], _ => none
  | (k, v) :: rest, u => if k = u then some v else lookupUrl rest u

/-- Shallow embedding of `logAvailability` (healthcheck.go lines 128-160), threading
the availability map through explicitly: the body only reads the map (a missing key,
impossible after `main`'s pre-allocation, would be the nil-pointer dereference of
line 133 and is modelled as `none`). Returns the rendered blocks, in the order of
the descriptor list, together with the map state after the call. -/
def logAvailabilityS : List Configuration → AvailMap → Option (List ReportBlock) × AvailMap
  | [], m => (some [], m)
  | req :: rest, m =>
    match lookupUrl m req.url with
    | none => (none, m)
    | some stats =>
      match logAvailabilityS rest m with
      | (none, m2) => (none, m2)
      | (some blocks, m2) => (some (renderBlock stats req :: blocks), m2)

/-- The output of `logAvailability`. -/
def logAvailability (requests : List Configuration) (m : AvailMap) : Option (List ReportBlock) :=
  (logAvailabilityS requests m).1

/-- A goroutine's step in executing `avail.SuccessCount++` / `avail.FailureCount++`
as compiled: first load the shared field, then store the loaded value plus one.
`checkEndpointHealth` takes no lock, so when two probes for the same URL complete
concurrently (duplicate URLs share one record pointer, healthcheck.go lines 210-234)
the two goroutines' loads and stores may interleave freely. -/
inductive IncAction where
  | read
  | write
  deriving DecidableEq, Repr

/-- Shared counter plus each goroutine's local register for the loaded value. -/
structure IncState where
  counter : Nat
  reg0 : Nat
  reg1 : Nat
  deriving DecidableEq, Repr

/-- Effect of one scheduled micro-step: goroutine `false` uses `reg0`, goroutine
`true` uses `reg1`; a read loads the shared counter, a write stores load + 1. -/
def incStep (s : IncState) : Bool × IncAction → IncState
  | (false, IncAction.read) => { s with reg0 := s.counter }
  | (false, IncAction.write) => { s with counter := s.reg0 + 1 }
  | (true, IncAction.read) => { s with reg1 := s.counter }
  | (true, IncAction.write) => { s with counter := s.reg1 + 1 }

/-- Execute a schedule (an interleaving of the two goroutines' micro-steps). -/
def runSchedule (sched : List (Bool × IncAction)) (s : IncState) : IncState :=
  sched.foldl incStep s

/-- The subsequence of micro-steps a schedule gives to one goroutine. -/
def threadProgram (sched : List (Bool × IncAction)) (tid : Bool) : List IncAction :=
  (sched.filter (fun p => p.1 == tid)).map Prod.snd

/-- Modelled from the spec: round-half-up of a nonnegative rational (§4.4's
`round(100 × successCount / (successCount + failureCount))`). -/
def roundHalfUp (q : ℚ) : Nat :=
  ⌊(q + 1 / 2 : ℚ)⌋₊

/-- The interleaving in which both goroutines load the counter before either
stores: a legal schedule of two concurrent `FailureCount++` / `SuccessCount++`
executions against the same record. -/
def racySchedule : List (Bool × IncAction) :=
  [(false, IncAction.read), (true, IncAction.read), (false, IncAction.write),
    (true, IncAction.write)]

/-- The serialized schedule: the first increment completes before the second starts. -/
def serialSchedule : List (Bool × IncAction) :=
  [(false, IncAction.read), (false, IncAction.write), (true, IncAction.read),
    (true, IncAction.write)]

/-- Concrete inputs used by witnesses. -/
def sampleReq1 : Configuration := ⟨"endpoint-a", "http://example.test/a", "GET", []⟩

/-- A second descriptor with a different name but the same URL as `sampleReq1`. -/
def sampleReq2 : Configuration := ⟨"endpoint-b", "http://example.test/a", "GET", []⟩

/-- A record with 2 successes out of 3 probes, latencies summing to 30 ns. -/
def sampleAvail : Availability := ⟨2, 1, 30, 10, 20⟩

/-- A ledger holding `sampleAvail` under the shared URL. -/
def sampleMap : AvailMap := [("http://example.test/a", sampleAvail)]

/-- A probe environment: response 200 at latency 100. -/
def sampleUpEnv : ProbeEnv := ⟨false, HttpResult.response 200, 100⟩

/-- A probe environment: transport error at measured latency 7. -/
def sampleErrEnv : ProbeEnv := ⟨false, HttpResult.transportError, 7⟩

/-- A probe environment whose request construction fails. -/
def sampleBadReqEnv : ProbeEnv := ⟨true, HttpResult.transportError, 0⟩

/-- Three successful probes with latencies 5, 0 and 3: the zero-latency success
resets the `MinLatency` sentinel (healthcheck.go line 114). -/
def zeroLatencyRun : List ProbeEnv :=
  [⟨false, HttpResult.response 200, 5⟩, ⟨false, HttpResult.response 200, 0⟩,
    ⟨false, HttpResult.response 200, 3⟩]

lemma probeUp_response (c lat thr : Nat) :
    probeUp ⟨false, HttpResult.response c, lat⟩ thr = decide (200 ≤ c ∧ c < 300 ∧ lat < thr) := by
  simp [probeUp, Bool.decide_and, Bool.and_assoc]

lemma checkEndpointHealth_avail (env : ProbeEnv) (a : Availability) (thr : Nat) :
    (checkEndpointHealth env a thr).avail =
      if probeUp env thr then recordSuccess a env.latency else recordFailure a := by
  rcases env with ⟨nre, res, lat⟩
  cases nre
  · cases res with
    | transportError => simp [checkEndpointHealth, probeUp]
    | response c =>
      by_cases hc : 200 ≤ c ∧ c < 300 ∧ lat < thr
      · simp [checkEndpointHealth, probeUp_response, hc]
      · simp [checkEndpointHealth, probeUp_response, hc]
  · simp [checkEndpointHealth, probeUp]

lemma recordSuccess_spec (a : Availability) (l : Nat) :
    (recordSuccess a l).successCount = a.successCount + 1
    ∧ (recordSuccess a l).failureCount = a.failureCount
    ∧ (recordSuccess a l).totalLatency = a.totalLatency + l
    ∧ (recordSuccess a l).minLatency = (if a.minLatency = 0 ∨ l < a.minLatency then l else a.minLatency)
    ∧ (recordSuccess a l).maxLatency = (if a.maxLatency < l then l else a.maxLatency) := by
  unfold recordSuccess
  by_cases h1 : a.minLatency = 0 ∨ l < a.minLatency <;> by_cases h2 : a.maxLatency < l <;>
    simp [h1, h2]

lemma recordFailure_spec (a : Availability) :
    recordFailure a = { a with failureCount := a.failureCount + 1 } := rfl

lemma availabilityPercentage_eq (s t : Nat) (h : 0 < t) :
    availabilityPercentage s t = (200 * s + t) / (2 * t) := by
  unfold availabilityPercentage
  have ht : (t : ℚ) ≠ 0 := Nat.cast_ne_zero.mpr h.ne'
  have key : ((s : ℚ) / (t : ℚ)) * 100 + 1 / 2 = ((200 * s + t : ℕ) : ℚ) / ((2 * t : ℕ) : ℚ) := by
    push_cast
    field_simp
    ring
  rw [key, Nat.floor_div_nat, Nat.floor_natCast]

lemma runProbes_nil (a : Availability) (thr : Nat) : runProbes [] a thr = a := rfl

lemma runProbes_cons (e : ProbeEnv) (envs : List ProbeEnv) (a : Availability) (thr : Nat) :
    runProbes (e :: envs) a thr = runProbes envs (checkEndpointHealth e a thr).avail thr := rfl

lemma runProbes_append (xs ys : List ProbeEnv) (a : Availability) (thr : Nat) :
    runProbes (xs ++ ys) a thr = runProbes ys (runProbes xs a thr) thr := by
  simp [runProbes, List.foldl_append]

lemma step_total (env : ProbeEnv) (a : Availability) (thr : Nat) :
    ((checkEndpointHealth env a thr).avail).total = a.total + 1 := by
  rw [checkEndpointHealth_avail]
  obtain ⟨s1, s2, _⟩ := recordSuccess_spec a env.latency
  split_ifs <;> simp [Availability.total, s1, s2, recordFailure_spec] <;> omega

lemma runProbes_total : ∀ (envs : List ProbeEnv) (a : Availability) (thr : Nat),
    (runProbes envs a thr).total = a.total + envs.length := by
  intro envs
  induction envs with
  | nil => intro a thr; simp [runProbes_nil]
  | cons e rest ih =>
    intro a thr
    rw [runProbes_cons, ih, step_total]
    simp [List.length_cons]
    omega

lemma successLatencies_nil (thr : Nat) : successLatencies [] thr = [] := rfl

lemma successLatencies_cons (e : ProbeEnv) (envs : List ProbeEnv) (thr : Nat) :
    successLatencies (e :: envs) thr =
      (if probeUp e thr then [e.latency] else []) ++ successLatencies envs thr := by
  simp only [successLatencies, List.filter_cons]
  split <;> simp

lemma latInvariant_init : LatInvariant Availability.init [] := by
  refine ⟨rfl, fun _ => ⟨rfl, rfl⟩, fun h => absurd rfl h, Nat.le_refl 0, ?_⟩
  intro l hl
  simp at hl

lemma latInvariant_recordFailure (a : Availability) (ls : List Nat)
    (h : LatInvariant a ls) : LatInvariant (recordFailure a) ls := by
  obtain ⟨h1, h2, h3, h4, h5⟩ := h
  exact ⟨by simpa [recordFailure] using h1, by simpa [recordFailure] using h2,
    by simpa [recordFailure] using h3, by simpa [recordFailure] using h4,
    by simpa [recordFailure] using h5⟩

lemma latInvariant_recordSuccess (a : Availability) (ls : List Nat) (l : Nat)
    (hl : 0 < l) (h : LatInvariant a ls) : LatInvariant (recordSuccess a l) (ls ++ [l]) := by
  obtain ⟨h1, h2, h3, h4, h5⟩ := h
  obtain ⟨s1, s2, s3, s4, s5⟩ := recordSuccess_spec a l
  refine ⟨by simp [s1, h1], by simp, ?_, ?_, ?_⟩
  · intro _
    rw [s4]
    split_ifs with hc
    · exact hl
    · push_neg at hc
      exact Nat.pos_of_ne_zero hc.1
  · rw [s4, s5]
    split_ifs <;> omega
  · intro x hx
    rw [s4, s5]
    rcases List.mem_append.mp hx with hx | hx
    · have hne : ls ≠ [] := List.ne_nil_of_mem hx
      have hmin := h3 hne
      have hb := h5 x hx
      split_ifs <;> omega
    · have hx : x = l := by simpa using hx
      subst hx
      split_ifs <;> omega

lemma runProbes_latInvariant :
    ∀ (envs : List ProbeEnv) (thr : Nat) (a : Availability) (ls : List Nat),
    (∀ e ∈ envs, probeUp e thr = true → 0 < e.latency) →
    LatInvariant a ls →
    LatInvariant (runProbes envs a thr) (ls ++ successLatencies envs thr) := by
  intro envs thr
  induction envs with
  | nil =>
    intro a ls _ h
    simpa [runProbes_nil, successLatencies_nil] using h
  | cons e rest ih =>
    intro a ls hpos h
    rw [runProbes_cons, checkEndpointHealth_avail, successLatencies_cons]
    by_cases hup : probeUp e thr = true
    · simp only [hup, if_true]
      rw [← List.append_assoc]
      exact ih (recordSuccess a e.latency) (ls ++ [e.latency])
        (fun x hx hu => hpos x (List.mem_cons_of_mem e hx) hu)
        (latInvariant_recordSuccess a ls e.latency (hpos e (List.mem_cons_self e rest) hup) h)
    · simp only [hup, if_false, Bool.false_eq_true, List.nil_append]
      exact ih (recordFailure a) ls
        (fun x hx hu => hpos x (List.mem_cons_of_mem e hx) hu)
        (latInvariant_recordFailure a ls h)

lemma logAvailabilityS_snd : ∀ (reqs : List Configuration) (m : AvailMap),
    (logAvailabilityS reqs m).2 = m := by
  intro reqs
  induction reqs with
  | nil => intro m; rfl
  | cons req rest ih =>
    intro m
    have h2 := ih m
    simp only [logAvailabilityS]
    cases hlook : lookupUrl m req.url with
    | none => rfl
    | some stats =>
      rcases hrec : logAvailabilityS rest m with ⟨o, m2⟩
      rw [hrec] at h2
      simp only [hrec]
      cases o <;> simpa using h2

lemma logAvailability_spec :
    ∀ (reqs : List Configuration) (m : AvailMap) (blocks : List ReportBlock),
    logAvailability reqs m = some blocks →
    blocks.length = reqs.length
    ∧ ∀ (i : Nat) (req : Configuration), reqs[i]? = some req →
        ∃ a, lookupUrl m req.url = some a ∧ blocks[i]? = some (renderBlock a req) := by
  intro reqs
  induction reqs with
  | nil =>
    intro m blocks h
    have hb : blocks = [] := by
      simpa [logAvailability, logAvailabilityS] using h
    subst hb
    refine ⟨rfl, ?_⟩
    intro i req hreq
    simp at hreq
  | cons req rest ih =>
    intro m blocks h
    unfold logAvailability logAvailabilityS at h
    cases hlook : lookupUrl m req.url with
    | none => rw [hlook] at h; simp at h
    | some stats =>
      rw [hlook] at h
      rcases hrec : logAvailabilityS rest m with ⟨o, m2⟩
      rw [hrec] at h
      cases o with
      | none => simp at h
      | some bs =>
        simp only at h
        have hb : blocks = renderBlock stats req :: bs := by
          simpa using h.symm
        subst hb
        obtain ⟨hlen, hget⟩ := ih m bs (by simp [logAvailability, hrec])
        refine ⟨by simp [hlen], ?_⟩
        intro i r hr
        cases i with
        | zero =>
          have hr : req = r := by simpa using hr
          subst hr
          exact ⟨stats, hlook, by simp⟩
        | succ n =>
          have hr' : rest[n]? = some r := by simpa using hr
          obtain ⟨a, ha1, ha2⟩ := hget n r hr'
          exact ⟨a, ha1, by simpa using ha2⟩

lemma renderBlock_figures_eq (a : Availability) (r1 r2 : Configuration) :
    (renderBlock a r1).figures = (renderBlock a r2).figures
    ∧ (renderBlock a r1).isNoData = (renderBlock a r2).isNoData := by
  unfold renderBlock
  split_ifs <;> simp [ReportBlock.figures, ReportBlock.isNoData]

/-- Claim C1: a probe is UP (successCount incremented) iff a response is received,
its status code lies in [200, 300) and the measured latency is strictly below the
configured threshold; every other outcome (request-construction error, transport
error, status outside the range, latency at or above the threshold) is DOWN and
increments failureCount. -/
theorem probe_classification_up_iff (env : ProbeEnv) (a : Availability) (thr : Nat) :
    ((checkEndpointHealth env a thr).avail.successCount = a.successCount + 1
      ↔ probeUp env thr = true)
    ∧ ((checkEndpointHealth env a thr).avail.failureCount = a.failureCount + 1
      ↔ probeUp env thr = false)
    ∧ (probeUp env thr = true ↔
        env.newRequestErr = false
        ∧ ∃ c, env.result = HttpResult.response c ∧ 200 ≤ c ∧ c < 300 ∧ env.latency < thr) := by
  have hiff : probeUp env thr = true ↔
      env.newRequestErr = false
      ∧ ∃ c, env.result = HttpResult.response c ∧ 200 ≤ c ∧ c < 300 ∧ env.latency < thr := by
    rcases env with ⟨nre, res, lat⟩
    cases nre <;> cases res <;> simp [probeUp, and_assoc]
  have hc := checkEndpointHealth_avail env a thr
  obtain ⟨s1, s2, _⟩ := recordSuccess_spec a env.latency
  cases hup : probeUp env thr
  · rw [hup] at hc
    simp only [Bool.false_eq_true, if_false] at hc
    rw [hc, recordFailure_spec]
    refine ⟨by simp, by simp, hup ▸ hiff⟩
  · rw [hup] at hc
    simp only [if_true] at hc
    rw [hc]
    refine ⟨by simp [s1], by simp [s2], hup ▸ hiff⟩

/-- Claim C2: every checkEndpointHealth call increments exactly one of the two
counters by one, so after any sequence of calls against a URL's record the sum of
the counters equals the number of calls, and that sum never decreases as further
calls are appended. -/
theorem probe_counts_total_calls (envs : List ProbeEnv) (thr : Nat) :
    (runProbes envs Availability.init thr).total = envs.length
    ∧ (∀ (env : ProbeEnv) (a : Availability),
        ((checkEndpointHealth env a thr).avail.successCount = a.successCount + 1
          ∧ (checkEndpointHealth env a thr).avail.failureCount = a.failureCount)
        ∨ ((checkEndpointHealth env a thr).avail.successCount = a.successCount
          ∧ (checkEndpointHealth env a thr).avail.failureCount = a.failureCount + 1))
    ∧ ∀ more, (runProbes envs Availability.init thr).total
        ≤ (runProbes (envs ++ more) Availability.init thr).total := by
  refine ⟨?_, ?_, ?_⟩
  · rw [runProbes_total]
    simp [Availability.total, Availability.init]
  · intro env a
    rw [checkEndpointHealth_avail]
    obtain ⟨s1, s2, _⟩ := recordSuccess_spec a env.latency
    split_ifs
    · exact Or.inl ⟨s1, s2⟩
    · exact Or.inr ⟨by simp [recordFailure_spec], by simp [recordFailure_spec]⟩
  · intro more
    rw [runProbes_total, runProbes_total, List.length_append]
    omega

/-- Claim C3 (code bug): `checkEndpointHealth` increments the shared record's
counters with plain read-modify-write and no lock, so when two probes for the same
URL complete concurrently the interleaving in which both goroutines load before
either stores loses one increment: the racy schedule is a legal interleaving of the
two goroutines' load/store programs yet leaves the counter at 1, where the
serialized execution of the same two increments leaves it at 2. -/
theorem shared_record_increment_lost_update :
    threadProgram racySchedule false = [IncAction.read, IncAction.write]
    ∧ threadProgram racySchedule true = [IncAction.read, IncAction.write]
    ∧ (runSchedule racySchedule ⟨0, 0, 0⟩).counter = 1
    ∧ (runSchedule serialSchedule ⟨0, 0, 0⟩).counter = 2 :=
  ⟨by decide, by decide, by decide, by decide⟩

/-- Claim C4 (counterexample): after three successful probes with latencies 5, 0
and 3 the record's minLatency is 3, yet 0 is a recorded successful latency — with a
zero-latency success the sentinel is reset and the lower-bound invariant of the
claim fails. -/
theorem latency_extrema_zero_latency_cex :
    0 < (runProbes zeroLatencyRun Availability.init 500).successCount
    ∧ (0 : Nat) ∈ successLatencies zeroLatencyRun 500
    ∧ (runProbes zeroLatencyRun Availability.init 500).minLatency = 3
    ∧ ¬((runProbes zeroLatencyRun Availability.init 500).minLatency ≤ 0) :=
  ⟨by decide, by decide, by decide, by decide⟩

/-- Claim C4 (amended): provided every probe classified UP measured a positive
latency, the latency extrema stay at the unset sentinel 0 until the first success,
become positive once a success is recorded, bound every recorded successful
latency, and satisfy minLatency ≤ maxLatency. -/
theorem latency_extrema_bounds (envs : List ProbeEnv) (thr : Nat)
    (hpos : allUpLatenciesPos envs thr = true) :
    ((runProbes envs Availability.init thr).successCount = 0 →
      (runProbes envs Availability.init thr).minLatency = 0
      ∧ (runProbes envs Availability.init thr).maxLatency = 0)
    ∧ (0 < (runProbes envs Availability.init thr).successCount →
      0 < (runProbes envs Availability.init thr).minLatency)
    ∧ (runProbes envs Availability.init thr).minLatency
        ≤ (runProbes envs Availability.init thr).maxLatency
    ∧ ∀ l ∈ successLatencies envs thr,
        (runProbes envs Availability.init thr).minLatency ≤ l
        ∧ l ≤ (runProbes envs Availability.init thr).maxLatency := by
  have hpos' : ∀ e ∈ envs, probeUp e thr = true → 0 < e.latency := by
    simp only [allUpLatenciesPos, List.all_eq_true] at hpos
    intro e he hu
    have hx := hpos e he
    rw [hu] at hx
    simpa using hx
  have hinv := runProbes_latInvariant envs thr Availability.init [] hpos' latInvariant_init
  rw [List.nil_append] at hinv
  obtain ⟨h1, h2, h3, h4, h5⟩ := hinv
  refine ⟨?_, ?_, h4, h5⟩
  · intro hs
    apply h2
    rw [hs] at h1
    exact (List.length_eq_zero.mp h1.symm)
  · intro hs
    apply h3
    intro hnil
    rw [hnil] at h1
    simp at h1
    omega

theorem latency_extrema_bounds_witness :
    allUpLatenciesPos [sampleUpEnv] 500 = true
    ∧ ((runProbes [sampleUpEnv] Availability.init 500).minLatency ≤ 100
      ∧ 100 ≤ (runProbes [sampleUpEnv] Availability.init 500).maxLatency) :=
  ⟨by decide, (latency_extrema_bounds [sampleUpEnv] 500 (by decide)).2.2.2 100 (by decide)⟩

/-- Claim C5: the reported availability percentage is the round-half-up of
100 × successCount / total — the float64 computation (modelled exactly over ℚ)
equals the spec's rounding rule and the closed Nat form (200·s + t) / (2·t);
in particular 2 of 3 renders 67, 1 of 3 renders 33, and 1 of 2 renders 50. -/
theorem availability_percentage_round_half_up (s t : Nat) (h : 0 < t) :
    availabilityPercentage s t = roundHalfUp ((100 * s : ℚ) / (t : ℚ))
    ∧ availabilityPercentage s t = (200 * s + t) / (2 * t)
    ∧ availabilityPercentage 2 3 = 67
    ∧ availabilityPercentage 1 3 = 33
    ∧ availabilityPercentage 1 2 = 50 := by
  refine ⟨?_, availabilityPercentage_eq s t h, ?_, ?_, ?_⟩
  · unfold availabilityPercentage roundHalfUp
    congr 2
    ring
  · rw [availabilityPercentage_eq 2 3 (by norm_num)]
  · rw [availabilityPercentage_eq 1 3 (by norm_num)]
  · rw [availabilityPercentage_eq 1 2 (by norm_num)]

theorem availability_percentage_round_half_up_witness :
    0 < 3 ∧ availabilityPercentage 2 3 = 67 :=
  ⟨by decide, (availability_percentage_round_half_up 2 3 (by decide)).2.2.1⟩

/-- Claim C6: a probe not classified UP (transport error, request-construction
error, bad status, or excessive latency) increments failureCount and leaves
successCount, totalLatency, minLatency and maxLatency untouched. -/
theorem failure_updates_only_failure_count (env : ProbeEnv) (a : Availability) (thr : Nat)
    (h : probeUp env thr = false) :
    (checkEndpointHealth env a thr).avail = { a with failureCount := a.failureCount + 1 } := by
  rw [checkEndpointHealth_avail, h]
  simp [recordFailure_spec]

theorem failure_updates_only_failure_count_witness :
    probeUp sampleErrEnv 500 = false
    ∧ (checkEndpointHealth sampleErrEnv Availability.init 500).avail
        = { Availability.init with failureCount := Availability.init.failureCount + 1 } :=
  ⟨by decide, failure_updates_only_failure_count sampleErrEnv Availability.init 500 (by decide)⟩

/-- Claim C7: the rendered block for a descriptor is the "no data yet" message
exactly when no probe has completed for its URL; with a positive total it carries
the rounded percentage and the three counts, renders the average latency as
"not applicable" (none) exactly when there are no successes, and omits the
minimum/maximum latency lines exactly while those fields hold the unset sentinel. -/
theorem reporter_block_contract (a : Availability) (req : Configuration) :
    (a.total = 0 → renderBlock a req = ReportBlock.noData req.name req.url)
    ∧ (0 < a.total →
        ∃ avg mn mx,
          renderBlock a req =
            ReportBlock.stats req.name req.url
              (availabilityPercentage a.successCount a.total)
              a.total a.successCount a.failureCount avg mn mx
          ∧ (avg = none ↔ a.successCount = 0)
          ∧ (0 < a.successCount → avg = some (a.totalLatency / a.successCount))
          ∧ (mn = none ↔ a.minLatency = 0)
          ∧ (0 < a.minLatency → mn = some a.minLatency)
          ∧ (mx = none ↔ a.maxLatency = 0)
          ∧ (0 < a.maxLatency → mx = some a.maxLatency)) := by
  constructor
  · intro h
    simp [renderBlock, h]
  · intro h
    have hne : ¬(a.total = 0) := by omega
    refine ⟨if a.successCount > 0 then some (a.totalLatency / a.successCount) else none,
      if a.minLatency > 0 then some a.minLatency else none,
      if a.maxLatency > 0 then some a.maxLatency else none,
      by simp [renderBlock, hne], ?_, ?_, ?_, ?_, ?_, ?_⟩
    · split_ifs with hs <;> simp <;> omega
    · intro hs
      rw [if_pos hs]
    · split_ifs with hs <;> simp <;> omega
    · intro hs
      rw [if_pos hs]
    · split_ifs with hs <;> simp <;> omega
    · intro hs
      rw [if_pos hs]

theorem reporter_block_contract_witness :
    Availability.init.total = 0
    ∧ renderBlock Availability.init sampleReq1
        = ReportBlock.noData sampleReq1.name sampleReq1.url :=
  ⟨rfl, (reporter_block_contract Availability.init sampleReq1).1 rfl⟩

/-- Claim C8: the reporter emits one block per descriptor in descriptor-list order
(the i-th block is rendered from the i-th descriptor and the ledger record looked
up under that descriptor's URL), and two descriptors sharing a URL yield blocks
with identical numeric figures because they share one record. -/
theorem reporter_order_and_shared_stats (reqs : List Configuration) (m : AvailMap)
    (blocks : List ReportBlock) (h : logAvailability reqs m = some blocks) :
    blocks.length = reqs.length
    ∧ (∀ (i : Nat) (req : Configuration), reqs[i]? = some req →
        ∃ a, lookupUrl m req.url = some a ∧ blocks[i]? = some (renderBlock a req))
    ∧ ∀ (i j : Nat) (ri rj : Configuration) (bi bj : ReportBlock),
        reqs[i]? = some ri → reqs[j]? = some rj → ri.url = rj.url →
        blocks[i]? = some bi → blocks[j]? = some bj →
        bi.figures = bj.figures ∧ bi.isNoData = bj.isNoData := by
  obtain ⟨hlen, hget⟩ := logAvailability_spec reqs m blocks h
  refine ⟨hlen, hget, ?_⟩
  intro i j ri rj bi bj hri hrj hurl hbi hbj
  obtain ⟨ai, hai, hbi'⟩ := hget i ri hri
  obtain ⟨aj, haj, hbj'⟩ := hget j rj hrj
  rw [hurl] at hai
  rw [hai] at haj
  have haij : ai = aj := Option.some.inj haj
  subst haij
  rw [hbi] at hbi'
  rw [hbj] at hbj'
  have hbi'' : bi = renderBlock ai ri := Option.some.inj hbi'
  have hbj'' : bj = renderBlock ai rj := Option.some.inj hbj'
  subst hbi''
  subst hbj''
  exact renderBlock_figures_eq ai ri rj

theorem reporter_order_and_shared_stats_witness :
    logAvailability [sampleReq1, sampleReq2] sampleMap =
      some [renderBlock sampleAvail sampleReq1, renderBlock sampleAvail sampleReq2]
    ∧ (renderBlock sampleAvail sampleReq1).figures
        = (renderBlock sampleAvail sampleReq2).figures :=
  ⟨rfl,
    ((reporter_order_and_shared_stats [sampleReq1, sampleReq2] sampleMap
        [renderBlock sampleAvail sampleReq1, renderBlock sampleAvail sampleReq2] rfl).2.2
      0 1 sampleReq1 sampleReq2 (renderBlock sampleAvail sampleReq1)
      (renderBlock sampleAvail sampleReq2) rfl rfl rfl rfl rfl).1⟩

/-- Claim C9: the reporter is read-only — a call leaves the availability map
unchanged, and a second call on the resulting state renders the same output. -/
theorem reporter_idempotent (reqs : List Configuration) (m : AvailMap) :
    (logAvailabilityS reqs m).2 = m
    ∧ (logAvailabilityS reqs ((logAvailabilityS reqs m).2)).1 = (logAvailabilityS reqs m).1 := by
  refine ⟨logAvailabilityS_snd reqs m, ?_⟩
  rw [logAvailabilityS_snd reqs m]

/-- Claim C10: when request construction fails, checkEndpointHealth increments
failureCount by one and returns with no HTTP request issued, no latency measured,
and every other record field unchanged. -/
theorem new_request_error_absorbed (env : ProbeEnv) (a : Availability) (thr : Nat)
    (h : env.newRequestErr = true) :
    checkEndpointHealth env a thr =
      { avail := { a with failureCount := a.failureCount + 1 },
        requestIssued := false, measuredLatency := none } := by
  unfold checkEndpointHealth
  rw [h]
  simp [recordFailure_spec]

theorem new_request_error_absorbed_witness :
    sampleBadReqEnv.newRequestErr = true
    ∧ checkEndpointHealth sampleBadReqEnv Availability.init 500 =
        { avail := { Availability.init with
            failureCount := Availability.init.failureCount + 1 },
          requestIssued := false, measuredLatency := none } :=
  ⟨by decide, new_request_error_absorbed sampleBadReqEnv Availability.init 500 (by decide)⟩

theorem probe_classification_up_iff_witness :
    probeUp sampleUpEnv 500 = true
    ∧ (checkEndpointHealth sampleUpEnv Availability.init 500).avail.successCount
        = Availability.init.successCount + 1 :=
  ⟨by decide,
    (probe_classification_up_iff sampleUpEnv Availability.init 500).1.mpr (by decide)⟩

theorem probe_counts_total_calls_witness :
    (runProbes [sampleUpEnv, sampleErrEnv] Availability.init 500).total
      = [sampleUpEnv, sampleErrEnv].length :=
  (probe_counts_total_calls [sampleUpEnv, sampleErrEnv] 500).1

theorem reporter_idempotent_witness :
    (logAvailabilityS [sampleReq1] sampleMap).2 = sampleMap :=
  (reporter_idempotent [sampleReq1] sampleMap).1

end Healthcheck
